import Mathlib

/-!
Verification development for the `nimsforestsprites` rendering library.

This file gives a shallow embedding in Lean of the rendering core:
the world-state data model (`state.go`), the renderer, its software
rasterizer and its lifecycle operations (`renderer.go`), and the scene
graph with its ingest / animation-tick operations (the `Scene` source
file).  Go `float64` values are modelled as exact rationals (`ℚ`); Go
`int` as `Int`, with Go's truncating conversions and `%` modelled by
`Int.tdiv` / `Int.tmod`.  Mutexes are dropped (the model is a pure
state-passing one) and the accelerated (ebiten) backend's frame capture
is not modelled: on the software path, and on the accelerated path's
timeout fallback, the produced frame is `renderFrameSoftware`, which is
what the model returns.
-/

/-- An 8-bit RGBA color (each channel morally `< 256`, as in Go's
`color.RGBA`). -/
structure RGBA where
  r : ℕ
  g : ℕ
  b : ℕ
  a : ℕ
deriving DecidableEq

/-- Model of `Land` from `state.go`: a renderable land/node. -/
structure Land where
  id : String
  name : String
  x : ℚ
  y : ℚ
  ty : String
deriving DecidableEq

/-- Model of `Process` from `state.go`: an active process (tree, nim, ...). -/
structure Process where
  id : String
  landID : String
  ty : String
  progress : ℚ
  x : ℚ
  y : ℚ
deriving DecidableEq

/-- The `State` interface of `state.go`, modelled extensionally as the
snapshot its two pure accessors `Lands()` / `Processes()` return.  A Go
`nil` interface value is modelled as `none : Option WorldState`. -/
structure WorldState where
  lands : List Land
  processes : List Process
deriving DecidableEq

/-- Go's `int(q)` conversion from `float64`: truncation toward zero. -/
def truncQ (q : ℚ) : Int :=
  q.num.tdiv q.den

/-- Model of `Options` from `renderer.go`. -/
structure Options where
  width : Int
  height : Int
  frameRate : Int
  scale : ℚ
  useGPU : Bool
deriving DecidableEq

/-- Model of `DefaultOptions` from `renderer.go`. -/
def DefaultOptions : Options :=
  { width := 1920, height := 1080, frameRate := 30, scale := 1, useGPU := true }

/-- Model of `Renderer` from `renderer.go` (the mutex and the ebiten game /
channels are not part of the model). -/
structure Renderer where
  opts : Options
  state : Option WorldState
  closed : Bool
  tick : Int
deriving DecidableEq

/-- Model of `New` from `renderer.go`: applies zero-value defaults to the options
and constructs the renderer.  The Go function returns `(r, nil)`; the
`Except` mirrors its `(*Renderer, error)` signature, with `.ok` for a
`nil` error. -/
def New (opts : Options) : Except String Renderer :=
  let opts := { opts with width := if opts.width = 0 then 1920 else opts.width }
  let opts := { opts with height := if opts.height = 0 then 1080 else opts.height }
  let opts := { opts with frameRate := if opts.frameRate = 0 then 30 else opts.frameRate }
  let opts := { opts with scale := if opts.scale = 0 then 1 else opts.scale }
  Except.ok { opts := opts, state := none, closed := false, tick := 0 }

/-- Model of `getLandColor` from `renderer.go` (package-level function). -/
def getLandColor (landType : String) : RGBA :=
  match landType with
  | "mana" => ⟨80, 60, 120, 255⟩
  | "forest" => ⟨40, 80, 50, 255⟩
  | "water" => ⟨40, 60, 100, 255⟩
  | _ => ⟨60, 70, 60, 255⟩

/-- Model of `getProcessColor` from `renderer.go` (package-level function). -/
def getProcessColor (procType : String) : RGBA :=
  match procType with
  | "tree" => ⟨60, 150, 60, 255⟩
  | "nim" => ⟨200, 180, 100, 255⟩
  | "mana" => ⟨150, 100, 200, 255⟩
  | _ => ⟨150, 150, 150, 255⟩

/-- The land-pulse computation of `renderFrameSoftware` / `drawScene`:
`pulse := float64(tick%60)/60.0; if pulse > 0.5 { pulse = 1.0 - pulse }`.
Go's `%` on `int` is truncated modulus, hence `Int.tmod`. -/
def pulseOf (tick : Int) : ℚ :=
  if ((Int.tmod tick 60 : Int) : ℚ) / 60 > 1/2 then 1 - ((Int.tmod tick 60 : Int) : ℚ) / 60
  else ((Int.tmod tick 60 : Int) : ℚ) / 60

/-- The land-tile alpha of `renderFrameSoftware` / `drawScene`:
`uint8(200 + pulse*55)` (Go float-to-uint8 conversion truncates toward
zero; the value is within `uint8` range for every tick). -/
def landAlpha (tick : Int) : ℕ :=
  (truncQ (200 + pulseOf tick * 55)).toNat

/-- A frame pixel buffer, modelled as a total pixel-to-color map.
Pixels outside the image bounds are never written by the rasterizer. -/
def Frame := Int × Int → RGBA

/-- Model of `img.SetRGBA(px, py, c)` from Go's image package. -/
def setRGBA (im : Frame) (px py : Int) (c : RGBA) : Frame :=
  fun p => if p.1 = px ∧ p.2 = py then c else im p

/-- The loop body shared by `fillRectSW` and `fillCircleSW`: write pixel
`q` only if it lies within the `maxW × maxH` buffer bounds. -/
def setClipped (maxW maxH : Int) (c : RGBA) (im : Frame) (q : Int × Int) : Frame :=
  if 0 ≤ q.1 ∧ q.1 < maxW ∧ 0 ≤ q.2 ∧ q.2 < maxH then setRGBA im q.1 q.2 c else im

/-- The pixels visited by `fillRectSW`'s double loop
(`for dy := 0; dy < h` / `for dx := 0; dx < w`), in loop order. -/
def rectPoints (x y w h : Int) : List (Int × Int) :=
  (List.range h.toNat).flatMap fun dy : ℕ =>
    (List.range w.toNat).map fun dx : ℕ => (x + (dx : Int), y + (dy : Int))

/-- Model of `fillRectSW` from `renderer.go`. -/
def fillRectSW (im : Frame) (x y w h : Int) (c : RGBA) (maxW maxH : Int) : Frame :=
  (rectPoints x y w h).foldl (setClipped maxW maxH c) im

/-- The inclusive integer range `[a, b]` as a list (Go
`for i := a; i <= b; i++`). -/
def intRangeIncl (a b : Int) : List Int :=
  (List.range (b - a + 1).toNat).map fun i : ℕ => a + (i : Int)

/-- The `(x, y)` offset pairs visited by `fillCircleSW`'s double loop
(`for y := -radius; y <= radius` / `for x := -radius; x <= radius`). -/
def squareOffsets (radius : Int) : List (Int × Int) :=
  (intRangeIncl (-radius) radius).flatMap fun y =>
    (intRangeIncl (-radius) radius).map fun x => (x, y)

/-- Model of `fillCircleSW` from `renderer.go`: fill every offset with
`x*x + y*y <= radius*radius`, clipping each written pixel. -/
def fillCircleSW (im : Frame) (cx cy radius : Int) (c : RGBA) (maxW maxH : Int) : Frame :=
  (squareOffsets radius).foldl
    (fun im2 d =>
      if d.1 * d.1 + d.2 * d.2 ≤ radius * radius then
        setClipped maxW maxH c im2 (cx + d.1, cy + d.2)
      else im2)
    im

/-- Model of `sin` from `renderer.go`: range reduction by a truncating division,
then a degree-5 Taylor polynomial (exact ℚ model of the float code). -/
def sinGo (x : ℚ) : ℚ :=
  let pi : ℚ := 314159 / 100000
  let x := x - (truncQ (x / (2 * pi)) : Int) * 2 * pi
  let x := if x > pi then x - 2 * pi else x
  let x2 := x * x
  x * (1 - x2 / 6 + x2 * x2 / 120)

/-- The background color of `renderFrameSoftware`. -/
def bgColorSW : RGBA := ⟨20, 25, 30, 255⟩

/-- The land-tile layer of `renderFrameSoftware`: the dark background
after the `for _, land := range lands` loop (each tile drawn with the
pulsing alpha). -/
def landsLayer (r : Renderer) (st : WorldState) : Frame :=
  let tick := r.tick
  let tileSize : Int := truncQ (64 * r.opts.scale)
  st.lands.foldl
    (fun im land =>
      let x : Int := 100 + truncQ land.x * tileSize
      let y : Int := 100 + truncQ land.y * tileSize
      let c := { getLandColor land.ty with a := landAlpha tick }
      fillRectSW im x y (tileSize - 2) (tileSize - 2) c r.opts.width r.opts.height)
    (fun _ => bgColorSW)

/-- The process layer of `renderFrameSoftware`: `landsLayer` after the
`for _, proc := range processes` loop (each process a radius-8 circle
with the truncated sine bounce added to its y position). -/
def procsLayer (r : Renderer) (st : WorldState) : Frame :=
  let tick := r.tick
  let tileSize : Int := truncQ (64 * r.opts.scale)
  st.processes.foldl
    (fun im proc =>
      let px : Int := 100 + truncQ proc.x * tileSize + Int.tdiv tileSize 2
      let py : Int := 100 + truncQ proc.y * tileSize + Int.tdiv tileSize 2
      let bounce : Int := truncQ (sinGo ((tick : ℚ) / 10 + proc.x * (1/2)) * 3)
      fillCircleSW im px (py + bounce) 8 (getProcessColor proc.ty)
        r.opts.width r.opts.height)
    (landsLayer r st)

/-- Model of `renderFrameSoftware` from `renderer.go`: background fill, land
tiles (with pulsing alpha), process circles (with sine bounce), then the
debug frame indicator at `x = 10 + (tick%60)*2`.  A `nil` state returns
the bare background. -/
def renderFrameSoftware (r : Renderer) (state : Option WorldState) : Frame :=
  match state with
  | none => fun _ => bgColorSW
  | some st =>
    fillRectSW (procsLayer r st) (10 + Int.tmod r.tick 60 * 2) 10 4 4
      ⟨100, 200, 100, 200⟩ r.opts.width r.opts.height

/-- Model of `Renderer.Update` from `renderer.go`: replace the stored state. -/
def Renderer.Update (r : Renderer) (state : Option WorldState) : Renderer :=
  { r with state := state }

/-- Model of `Renderer.Render` from `renderer.go`: store the state, advance the
tick, then — only then — check the closed flag and bail out with a `nil`
frame (here `none`).  On the accelerated path the source waits on the
ebiten frame channel and falls back to `renderFrameSoftware` on timeout;
the channel capture is not modelled, so both branches of the model
return the software frame. -/
def Renderer.Render (r : Renderer) (state : Option WorldState) : Renderer × Option Frame :=
  let r2 := { r with state := state, tick := r.tick + 1 }
  if r2.closed then (r2, none)
  else if r2.opts.useGPU then (r2, some (renderFrameSoftware r2 state))
  else (r2, some (renderFrameSoftware r2 state))

/-- Model of `Renderer.Close` from `renderer.go`: set the closed flag; the Go
method always returns a `nil` error, mirrored by the `none` component. -/
def Renderer.Close (r : Renderer) : Renderer × Option String :=
  ({ r with closed := true }, none)

/-- Model of `Sprite` from the Scene source file: a renderable sprite. -/
structure Sprite where
  x : ℚ
  y : ℚ
  z : ℚ
  width : ℚ
  height : ℚ
  color : RGBA
  ty : String
  id : String
  progress : ℚ
deriving DecidableEq

/-- Model of `LandSprite` from the Scene source file: a land tile sprite. -/
structure LandSprite where
  x : ℚ
  y : ℚ
  ty : String
  id : String
  color : RGBA
  width : ℚ
  height : ℚ
deriving DecidableEq

/-- Model of `Scene` from the Scene source file (mutex dropped). -/
structure Scene where
  width : Int
  height : Int
  scale : ℚ
  lands : List LandSprite
  sprites : List Sprite
  tick : Int
  cameraX : ℚ
  cameraY : ℚ
  tileSize : ℚ
deriving DecidableEq

/-- Model of `NewScene` from the Scene source file (Go zero values give the empty
land/sprite slices and tick 0). -/
def NewScene (width height : Int) (scale : ℚ) : Scene :=
  { width := width, height := height, scale := scale,
    lands := [], sprites := [], tick := 0,
    tileSize := 80 * scale,
    cameraX := (width : ℚ) / 2,
    cameraY := (height : ℚ) / 3 }

/-- Model of `Scene.getLandColor` (method) from the Scene source file. -/
def Scene.getLandColor (_s : Scene) (landType : String) : RGBA :=
  match landType with
  | "mana" => ⟨80, 60, 120, 255⟩
  | "normal" => ⟨50, 100, 60, 255⟩
  | _ => ⟨60, 80, 70, 255⟩

/-- Model of `Scene.getProcessColor` (method) from the Scene source file. -/
def Scene.getProcessColor (_s : Scene) (procType : String) : RGBA :=
  match procType with
  | "tree" => ⟨80, 180, 80, 255⟩
  | "nim" => ⟨200, 180, 80, 255⟩
  | "mana" => ⟨150, 100, 200, 255⟩
  | "harvest" => ⟨200, 100, 80, 255⟩
  | _ => ⟨150, 150, 150, 255⟩

/-- The sprite ordering used by `Scene.UpdateFromState`'s
`sort.Slice(..., s.sprites[i].Z < s.sprites[j].Z)`: the postcondition of
that comparison sort is a permutation nondecreasing in `Z`. -/
def zle (a b : Sprite) : Prop := a.z ≤ b.z

instance : DecidableRel zle := fun a b => inferInstanceAs (Decidable (a.z ≤ b.z))

instance : IsTotal Sprite zle := ⟨fun a b => le_total a.z b.z⟩

instance : IsTrans Sprite zle := ⟨fun _ _ _ hab hbc => le_trans hab hbc⟩

/-- Model of `Scene.UpdateFromState` from the Scene source file: a `nil` state
returns immediately (keeping the previous collections); otherwise the
land-sprite and sprite collections are rebuilt wholesale and the sprite
list is sorted by Z-order.  `sort.Slice` (an unstable comparison sort)
is modelled by `List.insertionSort`, which satisfies the same
postcondition: a permutation nondecreasing in `Z`. -/
def Scene.UpdateFromState (s : Scene) (state : Option WorldState) : Scene :=
  match state with
  | none => s
  | some st =>
    let lands := st.lands.map fun land =>
      { x := land.x, y := land.y, ty := land.ty, id := land.id,
        color := s.getLandColor land.ty,
        width := s.tileSize,
        height := s.tileSize * (1/2) : LandSprite }
    let sprites := st.processes.map fun proc =>
      { x := proc.x, y := proc.y,
        z := proc.y + 1/10,
        width := s.tileSize * (3/10),
        height := s.tileSize * (3/10),
        color := s.getProcessColor proc.ty,
        ty := proc.ty, id := proc.id,
        progress := proc.progress : Sprite }
    { s with lands := lands, sprites := List.insertionSort zle sprites }

/-- The per-sprite progress step of `Scene.Update`:
`Progress += 0.02; if Progress > 1.0 { Progress = 0.0 }` (the float
increment `0.02` is modelled exactly as `1/50`). -/
def advanceProgress (p : ℚ) : ℚ :=
  if p + 1/50 > 1 then 0 else p + 1/50

/-- Model of `Scene.Update` from the Scene source file: advance the tick and each
sprite's animation progress. -/
def Scene.Update (s : Scene) : Scene :=
  { s with tick := s.tick + 1,
           sprites := s.sprites.map fun sp =>
             { sp with progress := advanceProgress sp.progress } }

/-- Sprite list nondecreasing in Z key. -/
def sortedZ (l : List Sprite) : Prop := List.Sorted zle l

/-- Pixel `p` lies within the `maxW × maxH` buffer bounds (the clip test
of `fillRectSW` / `fillCircleSW`). -/
def InBounds (maxW maxH : Int) (p : Int × Int) : Prop :=
  0 ≤ p.1 ∧ p.1 < maxW ∧ 0 ≤ p.2 ∧ p.2 < maxH

instance (maxW maxH : Int) (p : Int × Int) : Decidable (InBounds maxW maxH p) :=
  inferInstanceAs (Decidable (_ ∧ _ ∧ _ ∧ _))

theorem mem_intRangeIncl {a b i : Int} : i ∈ intRangeIncl a b ↔ a ≤ i ∧ i ≤ b := by
  unfold intRangeIncl
  constructor
  · intro h
    obtain ⟨k, hk, hEq⟩ := List.mem_map.1 h
    rw [List.mem_range] at hk
    omega
  · rintro ⟨h1, h2⟩
    exact List.mem_map.2 ⟨(i - a).toNat, List.mem_range.2 (by omega), by omega⟩

theorem mem_rectPoints {x y w h : Int} {p : Int × Int} :
    p ∈ rectPoints x y w h ↔
      (x ≤ p.1 ∧ p.1 < x + w) ∧ (y ≤ p.2 ∧ p.2 < y + h) := by
  obtain ⟨px, py⟩ := p
  unfold rectPoints
  constructor
  · intro hmem
    obtain ⟨dy, hdy, hmem2⟩ := List.mem_flatMap.1 hmem
    obtain ⟨dx, hdx, hEq⟩ := List.mem_map.1 hmem2
    rw [List.mem_range] at hdy hdx
    obtain ⟨h1, h2⟩ := Prod.mk.injEq .. ▸ hEq
    constructor <;> omega
  · rintro ⟨⟨h1, h2⟩, h3, h4⟩
    refine List.mem_flatMap.2 ⟨(py - y).toNat, List.mem_range.2 (by omega), ?_⟩
    refine List.mem_map.2 ⟨(px - x).toNat, List.mem_range.2 (by omega), ?_⟩
    rw [Prod.mk.injEq]
    omega

theorem mem_squareOffsets {radius : Int} {d : Int × Int} :
    d ∈ squareOffsets radius ↔
      (-radius ≤ d.1 ∧ d.1 ≤ radius) ∧ (-radius ≤ d.2 ∧ d.2 ≤ radius) := by
  obtain ⟨dx, dy⟩ := d
  unfold squareOffsets
  constructor
  · intro hmem
    obtain ⟨y, hy, hmem2⟩ := List.mem_flatMap.1 hmem
    obtain ⟨x, hx, hEq⟩ := List.mem_map.1 hmem2
    rw [mem_intRangeIncl] at hy hx
    obtain ⟨h1, h2⟩ := Prod.mk.injEq .. ▸ hEq
    subst h1; subst h2
    exact ⟨hx, hy⟩
  · rintro ⟨hx, hy⟩
    exact List.mem_flatMap.2
      ⟨dy, mem_intRangeIncl.2 hy, List.mem_map.2 ⟨dx, mem_intRangeIncl.2 hx, rfl⟩⟩

theorem setClipped_apply (maxW maxH : Int) (c : RGBA) (im : Frame) (q p : Int × Int) :
    setClipped maxW maxH c im q p =
      if p = q ∧ InBounds maxW maxH p then c else im p := by
  unfold setClipped setRGBA InBounds
  by_cases hpq : p = q
  · subst hpq
    by_cases hb : 0 ≤ p.1 ∧ p.1 < maxW ∧ 0 ≤ p.2 ∧ p.2 < maxH
    · simp [hb]
    · simp [hb]
  · by_cases hb : 0 ≤ q.1 ∧ q.1 < maxW ∧ 0 ≤ q.2 ∧ q.2 < maxH
    · have hne : ¬(p.1 = q.1 ∧ p.2 = q.2) := by
        rintro ⟨h1, h2⟩
        exact hpq (Prod.ext h1 h2)
      simp [hb, hne, hpq]
    · simp [hb, hpq]

theorem foldl_setClipped_apply (maxW maxH : Int) (c : RGBA) :
    ∀ (L : List (Int × Int)) (im : Frame) (p : Int × Int),
      (L.foldl (setClipped maxW maxH c) im) p =
        if p ∈ L ∧ InBounds maxW maxH p then c else im p
  | [], im, p => by simp
  | q :: L, im, p => by
    rw [List.foldl_cons,
        foldl_setClipped_apply maxW maxH c L (setClipped maxW maxH c im q) p,
        setClipped_apply]
    by_cases hb : InBounds maxW maxH p
    · by_cases hL : p ∈ L
      · rw [if_pos ⟨hL, hb⟩, if_pos ⟨List.mem_cons_of_mem q hL, hb⟩]
      · by_cases hpq : p = q
        · rw [if_neg (fun hcon => hL hcon.1), if_pos ⟨hpq, hb⟩,
              if_pos ⟨by rw [hpq]; exact List.mem_cons_self q L, hb⟩]
        · rw [if_neg (fun hcon => hL hcon.1), if_neg (fun hcon => hpq hcon.1),
              if_neg (fun hcon => (List.mem_cons.1 hcon.1).elim hpq hL)]
    · rw [if_neg (fun hcon => hb hcon.2), if_neg (fun hcon => hb hcon.2),
          if_neg (fun hcon => hb hcon.2)]

theorem foldl_guardedSetClipped_apply (maxW maxH : Int) (c : RGBA) (cx cy : Int)
    (P : Int × Int → Prop) [DecidablePred P] :
    ∀ (L : List (Int × Int)) (im : Frame) (p : Int × Int),
      (L.foldl
          (fun im2 d =>
            if P d then setClipped maxW maxH c im2 (cx + d.1, cy + d.2) else im2)
          im) p =
        if (∃ d ∈ L, P d ∧ (cx + d.1, cy + d.2) = p) ∧ InBounds maxW maxH p
        then c else im p
  | [], im, p => by simp
  | q :: L, im, p => by
    rw [List.foldl_cons, foldl_guardedSetClipped_apply maxW maxH c cx cy P L _ p]
    have hinner :
        (if P q then setClipped maxW maxH c im (cx + q.1, cy + q.2) else im) p =
          if P q ∧ p = (cx + q.1, cy + q.2) ∧ InBounds maxW maxH p then c else im p := by
      by_cases hPq : P q
      · rw [if_pos hPq, setClipped_apply]
        by_cases hpq : p = (cx + q.1, cy + q.2) ∧ InBounds maxW maxH p
        · rw [if_pos hpq, if_pos ⟨hPq, hpq.1, hpq.2⟩]
        · rw [if_neg hpq,
              if_neg (fun hcon : P q ∧ p = _ ∧ InBounds maxW maxH p =>
                hpq ⟨hcon.2.1, hcon.2.2⟩)]
      · rw [if_neg hPq, if_neg (fun hcon : P q ∧ _ => hPq hcon.1)]
    rw [hinner]
    by_cases h1 : (∃ d ∈ L, P d ∧ (cx + d.1, cy + d.2) = p) ∧ InBounds maxW maxH p
    · obtain ⟨⟨d, hd, hPd, hs⟩, hb⟩ := h1
      rw [if_pos ⟨⟨d, hd, hPd, hs⟩, hb⟩,
          if_pos ⟨⟨d, List.mem_cons_of_mem q hd, hPd, hs⟩, hb⟩]
    · rw [if_neg h1]
      by_cases h2 : P q ∧ p = (cx + q.1, cy + q.2) ∧ InBounds maxW maxH p
      · rw [if_pos h2,
            if_pos ⟨⟨q, List.mem_cons_self q L, h2.1, h2.2.1.symm⟩, h2.2.2⟩]
      · have hnot : ¬((∃ d ∈ q :: L, P d ∧ (cx + d.1, cy + d.2) = p) ∧
            InBounds maxW maxH p) := by
          rintro ⟨⟨d, hd, hPd, hs⟩, hb⟩
          rcases List.mem_cons.1 hd with hdq | hdL
          · exact h2 ⟨hdq ▸ hPd, (hdq ▸ hs).symm, hb⟩
          · exact h1 ⟨⟨d, hdL, hPd, hs⟩, hb⟩
        rw [if_neg h2, if_neg hnot]

theorem sq_le_bounds {a r : Int} (h : a * a ≤ r * r) (hr : 0 ≤ r) : -r ≤ a ∧ a ≤ r := by
  constructor <;> nlinarith

/-- Pixel-level characterization of `fillRectSW`: exactly the rectangle
pixels that survive the clip test receive the color; every other pixel
is untouched. -/
theorem fillRectSW_apply (im : Frame) (x y w h : Int) (c : RGBA) (maxW maxH : Int)
    (p : Int × Int) :
    fillRectSW im x y w h c maxW maxH p =
      if ((x ≤ p.1 ∧ p.1 < x + w) ∧ (y ≤ p.2 ∧ p.2 < y + h)) ∧ InBounds maxW maxH p
      then c else im p := by
  rw [fillRectSW, foldl_setClipped_apply]
  by_cases hm : ((x ≤ p.1 ∧ p.1 < x + w) ∧ (y ≤ p.2 ∧ p.2 < y + h)) ∧ InBounds maxW maxH p
  · rw [if_pos ⟨mem_rectPoints.2 hm.1, hm.2⟩, if_pos hm]
  · rw [if_neg (fun hcon => hm ⟨mem_rectPoints.1 hcon.1, hcon.2⟩), if_neg hm]

/-- The fill `fillRectSW` never touches a pixel outside the buffer bounds
(for every input, including negative or off-screen geometry). -/
theorem fillRectSW_outside (im : Frame) (x y w h : Int) (c : RGBA) (maxW maxH : Int)
    (p : Int × Int) (hp : ¬ InBounds maxW maxH p) :
    fillRectSW im x y w h c maxW maxH p = im p := by
  rw [fillRectSW, foldl_setClipped_apply, if_neg (fun hcon => hp hcon.2)]

/-- The fill `fillCircleSW` never touches a pixel outside the buffer bounds
(for every input, including a negative radius). -/
theorem fillCircleSW_outside (im : Frame) (cx cy radius : Int) (c : RGBA) (maxW maxH : Int)
    (p : Int × Int) (hp : ¬ InBounds maxW maxH p) :
    fillCircleSW im cx cy radius c maxW maxH p = im p := by
  rw [fillCircleSW, foldl_guardedSetClipped_apply, if_neg (fun hcon => hp hcon.2)]

/-- Pixel-level characterization of `fillCircleSW` for a nonnegative
radius: exactly the in-bounds pixels with `dx² + dy² ≤ r²` receive the
color. -/
theorem fillCircleSW_apply (im : Frame) (cx cy radius : Int) (c : RGBA) (maxW maxH : Int)
    (p : Int × Int) (hr : 0 ≤ radius) :
    fillCircleSW im cx cy radius c maxW maxH p =
      if ((p.1 - cx) * (p.1 - cx) + (p.2 - cy) * (p.2 - cy) ≤ radius * radius) ∧
          InBounds maxW maxH p
      then c else im p := by
  rw [fillCircleSW, foldl_guardedSetClipped_apply]
  have hiff : (∃ d ∈ squareOffsets radius,
      d.1 * d.1 + d.2 * d.2 ≤ radius * radius ∧ (cx + d.1, cy + d.2) = p) ↔
      (p.1 - cx) * (p.1 - cx) + (p.2 - cy) * (p.2 - cy) ≤ radius * radius := by
    constructor
    · rintro ⟨d, hmem, hP, rfl⟩
      simpa using hP
    · intro hP
      have h1 : (p.1 - cx) * (p.1 - cx) ≤ radius * radius := by
        nlinarith [mul_self_nonneg (p.2 - cy)]
      have h2 : (p.2 - cy) * (p.2 - cy) ≤ radius * radius := by
        nlinarith [mul_self_nonneg (p.1 - cx)]
      refine ⟨(p.1 - cx, p.2 - cy),
        mem_squareOffsets.2 ⟨sq_le_bounds h1 hr, sq_le_bounds h2 hr⟩, hP, ?_⟩
      exact Prod.ext (by ring) (by ring)
  by_cases hm : ((p.1 - cx) * (p.1 - cx) + (p.2 - cy) * (p.2 - cy) ≤ radius * radius) ∧
      InBounds maxW maxH p
  · rw [if_pos ⟨hiff.2 hm.1, hm.2⟩, if_pos hm]
  · rw [if_neg (fun hcon => hm ⟨hiff.1 hcon.1, hcon.2⟩), if_neg hm]

/-- After a non-nil ingest, the sprite list is sorted: the postcondition
of the `sort.Slice` call in `Scene.UpdateFromState`. -/
theorem updateFromState_some_sorted (s : Scene) (st : WorldState) :
    sortedZ (s.UpdateFromState (some st)).sprites :=
  List.sorted_insertionSort zle _

/-- A nil ingest returns immediately, leaving the scene unchanged. -/
theorem updateFromState_none (s : Scene) : s.UpdateFromState none = s := rfl

/-- The tick operation `Scene.Update` changes only tick and per-sprite progress, never a Z
key, so it preserves Z-order. -/
theorem update_preserves_sortedZ {s : Scene} (h : sortedZ s.sprites) :
    sortedZ s.Update.sprites := by
  unfold Scene.Update sortedZ
  exact List.Pairwise.map _ (fun a b hab => hab) h

/-- Claim C1: for every world state, immediately after the Scene Graph's
ingest operation (`Scene.UpdateFromState`) and after every subsequent
animation tick (`Scene.Update`), the sprite list is nondecreasing in Z
key.  (For a nil state the ingest is a no-op, so the hypothesis asks the
previous sprite list to be sorted — true of every reachable scene, and
vacuous for an actual ingest.) -/
theorem scene_sorted_after_ingest_and_ticks (s : Scene) (os : Option WorldState) (n : ℕ)
    (h : os = none → sortedZ s.sprites) :
    sortedZ ((Scene.Update)^[n] (s.UpdateFromState os)).sprites := by
  induction n with
  | zero =>
    cases os with
    | none => simpa [Scene.UpdateFromState] using h rfl
    | some st => simpa using updateFromState_some_sorted s st
  | succ n ih =>
    rw [Function.iterate_succ_apply']
    exact update_preserves_sortedZ ih

/-- Witness for C1: a fresh scene, a nil ingest, one tick. -/
theorem scene_sorted_after_ingest_and_ticks_witness :
    sortedZ ((Scene.Update)^[1] ((NewScene 100 100 1).UpdateFromState none)).sprites :=
  scene_sorted_after_ingest_and_ticks (NewScene 100 100 1) none 1
    (fun _ => List.sorted_nil)

/-- Each sprite's progress is advanced positionally by `Scene.Update`. -/
theorem update_sprite_getElem (s : Scene) (i : ℕ) :
    s.Update.sprites[i]? = s.sprites[i]?.map
      (fun sp => { sp with progress := advanceProgress sp.progress }) := by
  unfold Scene.Update
  exact List.getElem?_map ..

/-- Claim C6: a sprite with progress `0.95` crosses `1.0` within the
five `Scene.Update` ticks (at the third, where `0.95 + 3·0.02 > 1`) and
wraps to `0`, a value in `[0, increment)`; and one tick keeps any
progress inside `[0, 1]`. -/
theorem progress_wraps_within_five_ticks (s : Scene) (i : ℕ) (sp : Sprite)
    (hsp : s.sprites[i]? = some sp) (hp : sp.progress = 19/20) :
    (∃ sp3 : Sprite, ((Scene.Update)^[3] s).sprites[i]? = some sp3 ∧
        sp3.progress = 0 ∧ 0 ≤ sp3.progress ∧ sp3.progress < 1/50) ∧
      (19/20 + 1/50 + 1/50 + 1/50 : ℚ) > 1 ∧ (3 : ℕ) ≤ 5 ∧
      (∀ q : ℚ, 0 ≤ q → q ≤ 1 →
        0 ≤ advanceProgress q ∧ advanceProgress q ≤ 1) := by
  refine ⟨?_, by norm_num, by norm_num, ?_⟩
  · have e1 : (Scene.Update s).sprites[i]? =
        some { sp with progress := advanceProgress sp.progress } := by
      rw [update_sprite_getElem, hsp]; rfl
    have e2 : (Scene.Update (Scene.Update s)).sprites[i]? =
        some { sp with progress := advanceProgress (advanceProgress sp.progress) } := by
      rw [update_sprite_getElem, e1]; rfl
    have e3 : ((Scene.Update)^[3] s).sprites[i]? =
        some { sp with
          progress := advanceProgress (advanceProgress (advanceProgress sp.progress)) } := by
      show (Scene.Update (Scene.Update (Scene.Update s))).sprites[i]? = _
      rw [update_sprite_getElem, e2]; rfl
    rw [hp] at e3
    refine ⟨_, e3, ?_, ?_, ?_⟩
    · show advanceProgress (advanceProgress (advanceProgress (19/20))) = 0
      norm_num [advanceProgress]
    · show (0 : ℚ) ≤ advanceProgress (advanceProgress (advanceProgress (19/20)))
      norm_num [advanceProgress]
    · show advanceProgress (advanceProgress (advanceProgress (19/20))) < 1/50
      norm_num [advanceProgress]
  · intro q h0 h1
    unfold advanceProgress
    split_ifs with h
    · constructor <;> linarith
    · constructor <;> linarith

/-- A concrete sprite with progress 0.95. -/
def demoSprite : Sprite :=
  { x := 0, y := 0, z := 1/10, width := 24, height := 24,
    color := ⟨80, 180, 80, 255⟩, ty := "tree", id := "P0A", progress := 19/20 }

/-- A concrete scene holding `demoSprite`. -/
def demoScene : Scene :=
  { NewScene 1920 1080 1 with sprites := [demoSprite] }

/-- Witness for C6 at the concrete scene. -/
theorem progress_wraps_within_five_ticks_witness :
    (∃ sp3 : Sprite, ((Scene.Update)^[3] demoScene).sprites[0]? = some sp3 ∧
        sp3.progress = 0 ∧ 0 ≤ sp3.progress ∧ sp3.progress < 1/50) ∧
      (19/20 + 1/50 + 1/50 + 1/50 : ℚ) > 1 ∧ (3 : ℕ) ≤ 5 ∧
      (∀ q : ℚ, 0 ≤ q → q ≤ 1 →
        0 ≤ advanceProgress q ∧ advanceProgress q ≤ 1) :=
  progress_wraps_within_five_ticks demoScene 0 demoSprite rfl (by norm_num [demoSprite])

/-- Claim C9: `Renderer.Update` replaces only the stored pending state:
the tick counter, closed flag and options are unchanged, no frame is
produced (the operation returns only a renderer), and under a sequence
of updates the last written state is the one held. -/
theorem update_replaces_only_state (r : Renderer) (s1 s2 : Option WorldState) :
    (r.Update s1).state = s1 ∧ (r.Update s1).tick = r.tick ∧
      (r.Update s1).closed = r.closed ∧ (r.Update s1).opts = r.opts ∧
      (r.Update s1).Update s2 = r.Update s2 :=
  ⟨rfl, rfl, rfl, rfl, rfl⟩

/-- Claim C10: even on a closed renderer, `Render` first stores the
given state and increments the tick; the closed check fires only after
these mutations (and then yields no frame), so closing does not make
`Render` leave the renderer's state unchanged. -/
theorem render_mutates_even_when_closed (r : Renderer) (st : Option WorldState)
    (h : r.closed = true) :
    (r.Render st).1.tick = r.tick + 1 ∧ (r.Render st).1.state = st ∧
      (r.Render st).2 = none := by
  unfold Renderer.Render
  rw [if_pos (show ({ r with state := st, tick := r.tick + 1 } : Renderer).closed = true from h)]
  exact ⟨rfl, rfl, rfl⟩

/-- A concrete already-closed renderer. -/
def closedRenderer : Renderer :=
  { opts := DefaultOptions, state := none, closed := true, tick := 7 }

/-- Witness for C10 on a concrete closed renderer. -/
theorem render_mutates_even_when_closed_witness :
    (closedRenderer.Render (some ⟨[], []⟩)).1.tick = closedRenderer.tick + 1 ∧
      (closedRenderer.Render (some ⟨[], []⟩)).1.state = some ⟨[], []⟩ ∧
      (closedRenderer.Render (some ⟨[], []⟩)).2 = none :=
  render_mutates_even_when_closed closedRenderer (some ⟨[], []⟩) rfl

/-- Claim C2 (what the code actually does): after `Close`, a subsequent
`Render` returns a nil frame (`none`) — no stale frame is produced, but
no error value exists either: `Render`'s Go signature carries no error
result, and `Close` itself returns a nil error (the `none` in its second
component).  The Closed error the spec requires does not occur. -/
theorem render_after_close_returns_none (r : Renderer) (st : Option WorldState) :
    ((r.Close).1.Render st).2 = none ∧ (r.Close).2 = none := by
  constructor
  · unfold Renderer.Close Renderer.Render
    rfl
  · rfl

/-- Counterexample to claim C4: `New` corrects only exactly-zero
options; a negative width is kept as-is, not replaced by 1920. -/
theorem new_negative_width_kept :
    (New { width := -5, height := 0, frameRate := 0, scale := 0, useGPU := false }).map
        (fun r => r.opts.width) = Except.ok (-5) ∧ (-5 : Int) ≠ 1920 :=
  ⟨rfl, by decide⟩

/-- Claim C4 (amended): `New` never returns an error, and replaces
exactly-zero width/height/frame-rate/scale by the defaults
(1920 / 1080 / 30 / 1.0); every nonzero value — including negative ones
— is kept as given. -/
theorem new_applies_zero_defaults (opts : Options) :
    ∃ r : Renderer, New opts = Except.ok r ∧
      r.opts.width = (if opts.width = 0 then 1920 else opts.width) ∧
      r.opts.height = (if opts.height = 0 then 1080 else opts.height) ∧
      r.opts.frameRate = (if opts.frameRate = 0 then 30 else opts.frameRate) ∧
      r.opts.scale = (if opts.scale = 0 then 1 else opts.scale) ∧
      r.opts.useGPU = opts.useGPU ∧
      r.closed = false ∧ r.tick = 0 ∧ r.state = none :=
  ⟨_, rfl, rfl, rfl, rfl, rfl, rfl, rfl, rfl, rfl⟩

/-- On nonnegative rationals, Go's truncating conversion agrees with the
floor. -/
theorem truncQ_eq_floor {q : ℚ} (hq : 0 ≤ q) : truncQ q = ⌊q⌋ := by
  rw [truncQ, Rat.floor_def, Int.tdiv_eq_ediv (Rat.num_nonneg.2 hq) (by positivity)]

/-- For nonnegative ticks the code's pulse is a value in `[0, 1/2]`. -/
theorem pulseOf_bounds (t : Int) (ht : 0 ≤ t) :
    0 ≤ pulseOf t ∧ pulseOf t ≤ 1/2 := by
  unfold pulseOf
  have hk : 0 ≤ Int.tmod t 60 ∧ Int.tmod t 60 ≤ 59 := by
    rw [Int.tmod_eq_emod ht (by norm_num)]
    omega
  have hc0 : (0 : ℚ) ≤ ((Int.tmod t 60 : Int) : ℚ) := by exact_mod_cast hk.1
  have hc1 : ((Int.tmod t 60 : Int) : ℚ) ≤ 59 := by exact_mod_cast hk.2
  split_ifs with h
  · constructor <;> linarith
  · push_neg at h
    constructor
    · linarith
    · linarith

/-- The pulse at tick 30 (its peak): `0.5`, not `1`. -/
theorem pulseOf_val_30 : pulseOf 30 = 1/2 := by
  unfold pulseOf
  rw [show Int.tmod 30 60 = 30 from by decide]
  norm_num

/-- The pulse at tick 0. -/
theorem pulseOf_val_0 : pulseOf 0 = 0 := by
  unfold pulseOf
  rw [show Int.tmod 0 60 = 0 from by decide]
  norm_num

/-- The pulse at tick 60 (one full period). -/
theorem pulseOf_val_60 : pulseOf 60 = 0 := by
  unfold pulseOf
  rw [show Int.tmod 60 60 = 0 from by decide]
  norm_num

theorem landAlpha_val_30 : landAlpha 30 = 227 := by
  unfold landAlpha
  rw [pulseOf_val_30, truncQ_eq_floor (by norm_num)]
  have h : ⌊(200 : ℚ) + 1/2 * 55⌋ = 227 := by norm_num
  rw [h]
  rfl

theorem landAlpha_val_0 : landAlpha 0 = 200 := by
  unfold landAlpha
  rw [pulseOf_val_0, truncQ_eq_floor (by norm_num)]
  have h : ⌊(200 : ℚ) + 0 * 55⌋ = 200 := by norm_num
  rw [h]
  rfl

theorem landAlpha_val_60 : landAlpha 60 = 200 := by
  unfold landAlpha
  rw [pulseOf_val_60, truncQ_eq_floor (by norm_num)]
  have h : ⌊(200 : ℚ) + 0 * 55⌋ = 200 := by norm_num
  rw [h]
  rfl

/-- For nonnegative ticks the land alpha stays in `[200, 227]`. -/
theorem landAlpha_bounds (t : Int) (ht : 0 ≤ t) :
    200 ≤ landAlpha t ∧ landAlpha t ≤ 227 := by
  obtain ⟨h0, h1⟩ := pulseOf_bounds t ht
  unfold landAlpha
  rw [truncQ_eq_floor (by linarith)]
  have hlo : (200 : Int) ≤ ⌊(200 : ℚ) + pulseOf t * 55⌋ := by
    apply Int.le_floor.2
    push_cast
    linarith
  have hhi : ⌊(200 : ℚ) + pulseOf t * 55⌋ < 228 := by
    apply Int.floor_lt.2
    push_cast
    linarith
  omega

/-- Modelled from the spec: the pulsing alpha of claim C3 read
literally — `alpha = baseAlpha + pulse*55` with `pulse` a triangle wave
of period 60 whose peak (value 1) is at tick 30, so that tick 30 yields
the claimed maximum ≈255 and ticks 0/60 the minimum 200. -/
def landAlphaSpecC3 (tick : Int) : ℕ :=
  (truncQ (200 +
    (if Int.tmod tick 60 ≤ 30 then ((Int.tmod tick 60 : Int) : ℚ) / 30
     else ((60 - Int.tmod tick 60 : Int) : ℚ) / 30) * 55)).toNat

theorem landAlphaSpecC3_val_30 : landAlphaSpecC3 30 = 255 := by
  unfold landAlphaSpecC3
  rw [show Int.tmod 30 60 = 30 from by decide]
  rw [if_pos (le_refl (30 : Int))]
  have h30 : ((30 : Int) : ℚ) / 30 = 1 := by norm_num
  rw [h30, truncQ_eq_floor (by norm_num)]
  have h : ⌊(200 : ℚ) + 1 * 55⌋ = 255 := by norm_num
  rw [h]
  rfl

/-- Counterexample to claim C3: at tick 30 — the peak of the triangle
wave — the code's land alpha is 227, not the claimed maximum ≈255: the
code's pulse peaks at 0.5, so `200 + pulse*55` never exceeds 227. -/
theorem mana_alpha_at_peak_is_227 :
    landAlpha 30 = 227 ∧ landAlphaSpecC3 30 = 255 ∧
      landAlpha 30 ≠ landAlphaSpecC3 30 := by
  refine ⟨landAlpha_val_30, landAlphaSpecC3_val_30, ?_⟩
  rw [landAlpha_val_30, landAlphaSpecC3_val_30]
  decide

/-- A software-mode renderer at tick `t` (width 1920, height 1080,
scale 1). -/
def manaTickRenderer (t : Int) : Renderer :=
  { opts := { width := 1920, height := 1080, frameRate := 30, scale := 1, useGPU := false },
    state := none, closed := false, tick := t }

/-- A world with a single "mana" land at the grid origin and no
processes. -/
def manaWorld : WorldState :=
  { lands := [{ id := "L1", name := "A1", x := 0, y := 0, ty := "mana" }],
    processes := [] }

/-- Claim C3 (amended): the land alpha is `uint8(200 + pulse*55)` where
`pulse` is the code's triangle wave of period 60 ticks peaking at tick
30 — but its peak value is 0.5, so the maximum alpha, taken at tick 30,
is 227 (not ≈255); at ticks 0 and 60 the minimum 200 is taken; the
alpha stays in `[200, 227]` for every nonnegative tick; and in the
software frame a "mana" land tile pixel carries exactly this alpha. -/
theorem mana_land_alpha (t : Int) :
    landAlpha 0 = 200 ∧ landAlpha 30 = 227 ∧ landAlpha 60 = 200 ∧
      (0 ≤ t → 200 ≤ landAlpha t ∧ landAlpha t ≤ 227) ∧
      renderFrameSoftware (manaTickRenderer t) (some manaWorld) (100, 100) =
        ⟨80, 60, 120, landAlpha t⟩ := by
  refine ⟨landAlpha_val_0, landAlpha_val_30, landAlpha_val_60, landAlpha_bounds t, ?_⟩
  have h64 : truncQ (64 * (1 : ℚ)) = 64 := by
    rw [truncQ_eq_floor (by norm_num)]
    norm_num
  have h0 : truncQ (0 : ℚ) = 0 := by
    rw [truncQ_eq_floor le_rfl]
    norm_num
  show fillRectSW (procsLayer (manaTickRenderer t) manaWorld)
      (10 + Int.tmod (manaTickRenderer t).tick 60 * 2) 10 4 4 ⟨100, 200, 100, 200⟩
      (manaTickRenderer t).opts.width (manaTickRenderer t).opts.height (100, 100) =
      ⟨80, 60, 120, landAlpha t⟩
  rw [fillRectSW_apply]
  rw [if_neg (fun hcon => absurd hcon.1.2.2 (by decide))]
  show landsLayer (manaTickRenderer t) manaWorld (100, 100) = ⟨80, 60, 120, landAlpha t⟩
  unfold landsLayer manaWorld manaTickRenderer
  dsimp only
  simp only [List.foldl_cons, List.foldl_nil, h64, h0]
  rw [fillRectSW_apply]
  rw [if_pos (by refine ⟨⟨⟨?_, ?_⟩, ?_, ?_⟩, ?_⟩ <;> decide)]
  rfl

/-- Witness for the amended C3 at tick 30. -/
theorem mana_land_alpha_witness :
    (0 : Int) ≤ 30 ∧ 200 ≤ landAlpha 30 ∧ landAlpha 30 ≤ 227 ∧
      renderFrameSoftware (manaTickRenderer 30) (some manaWorld) (100, 100) =
        ⟨80, 60, 120, landAlpha 30⟩ := by
  obtain ⟨-, -, -, hb, hp⟩ := mana_land_alpha 30
  obtain ⟨h1, h2⟩ := hb (by decide)
  exact ⟨by decide, h1, h2, hp⟩

/-- The operation `Render` always returns the renderer with the state stored and the
tick advanced, on every branch. -/
theorem Render_fst (r : Renderer) (st : Option WorldState) :
    (r.Render st).1 = { r with state := st, tick := r.tick + 1 } := by
  unfold Renderer.Render
  dsimp only
  split_ifs <;> rfl

/-- Claim C5: every `Render` call advances the tick counter by exactly
one; and in the produced frame the debug indicator rectangle — drawn
last — colors the in-bounds pixels of the 4×4 square at vertical
position 10 whose horizontal position is `10 + (tick % 60) * 2`, a
deterministic function of the tick alone (here the tick of the call,
`r.tick + 1`). -/
theorem render_tick_and_indicator (r : Renderer) (ws : WorldState)
    (hclosed : r.closed = false) (_hgpu : r.opts.useGPU = false) :
    (r.Render (some ws)).1.tick = r.tick + 1 ∧
      ∃ f : Frame, (r.Render (some ws)).2 = some f ∧
        ∀ p : Int × Int,
          10 + Int.tmod (r.tick + 1) 60 * 2 ≤ p.1 →
          p.1 < 10 + Int.tmod (r.tick + 1) 60 * 2 + 4 →
          10 ≤ p.2 → p.2 < 14 → InBounds r.opts.width r.opts.height p →
          f p = ⟨100, 200, 100, 200⟩ := by
  constructor
  · rw [Render_fst]
  · refine ⟨renderFrameSoftware { r with state := some ws, tick := r.tick + 1 } (some ws),
      ?_, ?_⟩
    · unfold Renderer.Render
      dsimp only
      rw [if_neg (show ¬(({ r with state := some ws, tick := r.tick + 1 } :
            Renderer).closed = true) by
          show ¬(r.closed = true)
          rw [hclosed]
          exact Bool.false_ne_true)]
      split_ifs <;> rfl
    · intro p h1 h2 h3 h4 hb
      show fillRectSW
          (procsLayer { r with state := some ws, tick := r.tick + 1 } ws)
          (10 + Int.tmod (r.tick + 1) 60 * 2) 10 4 4 ⟨100, 200, 100, 200⟩
          r.opts.width r.opts.height p = ⟨100, 200, 100, 200⟩
      rw [fillRectSW_apply]
      rw [if_pos ⟨⟨⟨h1, by omega⟩, h3, by omega⟩, hb⟩]

/-- A concrete software-mode renderer at tick 0. -/
def swRenderer : Renderer :=
  { opts := { width := 1920, height := 1080, frameRate := 30, scale := 1, useGPU := false },
    state := none, closed := false, tick := 0 }

/-- Witness for C5: after one render at tick 0 the indicator sits at
x = 12 = 10 + (1 % 60) * 2. -/
theorem render_tick_and_indicator_witness :
    (swRenderer.Render (some ⟨[], []⟩)).1.tick = swRenderer.tick + 1 ∧
      ∃ f : Frame, (swRenderer.Render (some ⟨[], []⟩)).2 = some f ∧
        f (12, 10) = ⟨100, 200, 100, 200⟩ := by
  obtain ⟨ht, f, hf, hall⟩ := render_tick_and_indicator swRenderer ⟨[], []⟩ rfl rfl
  exact ⟨ht, f, hf,
    hall (12, 10) (by decide) (by decide) (by decide) (by decide) (by decide)⟩

/-- A scene already holding one sprite (as after some earlier ingest). -/
def oneSpriteScene : Scene :=
  { NewScene 1920 1080 1 with
    sprites := [{ x := 1, y := 1, z := 11/10, width := 24, height := 24,
                  color := ⟨200, 180, 80, 255⟩, ty := "nim", id := "P1A",
                  progress := 0 }] }

/-- Counterexample to claim C7: ingesting a nil state does not produce
empty collections — `Scene.UpdateFromState` returns immediately on nil,
keeping the previous (here nonempty) sprite list. -/
theorem nil_ingest_keeps_previous_sprites :
    (oneSpriteScene.UpdateFromState none).sprites.length = 1 ∧ (1 : ℕ) ≠ 0 :=
  ⟨rfl, by decide⟩

/-- Claim C7 (amended): ingesting an empty (non-nil) world state
produces empty land-sprite and sprite collections; ingesting a nil
state is a no-op keeping the previous collections; rendering a nil
state yields the bare background frame; rendering an empty state yields
the background plus only the debug indicator.  All these operations are
total — none fails. -/
theorem empty_state_ingest_and_render (s : Scene) (r : Renderer) :
    (s.UpdateFromState (some ⟨[], []⟩)).lands = [] ∧
      (s.UpdateFromState (some ⟨[], []⟩)).sprites = [] ∧
      s.UpdateFromState none = s ∧
      (∀ p : Int × Int, renderFrameSoftware r none p = bgColorSW) ∧
      renderFrameSoftware r (some ⟨[], []⟩) =
        fillRectSW (fun _ => bgColorSW) (10 + Int.tmod r.tick 60 * 2) 10 4 4
          ⟨100, 200, 100, 200⟩ r.opts.width r.opts.height :=
  ⟨rfl, rfl, rfl, fun _ => rfl, rfl⟩

/-- Counterexample to claim C8: with radius `-1` the
`for y := -radius; y <= radius` loop runs zero times, so `fillCircleSW`
fills nothing, although the center pixel satisfies
`dx² + dy² = 0 ≤ (-1)² = r²` and lies in bounds — the circle fill is
not exact for every integer input. -/
theorem circle_negative_radius_fills_nothing :
    fillCircleSW (fun _ => bgColorSW) 5 5 (-1) ⟨9, 9, 9, 9⟩ 10 10 (5, 5) = bgColorSW ∧
      ((5 : Int) - 5) * (5 - 5) + ((5 : Int) - 5) * (5 - 5) ≤ (-1) * (-1) ∧
      InBounds 10 10 (5, 5) ∧ bgColorSW ≠ ⟨9, 9, 9, 9⟩ :=
  ⟨rfl, by decide, by decide, by decide⟩

/-- Claim C8 (amended): for every integer input — negative positions,
off-screen or degenerate geometry included — `fillRectSW` and
`fillCircleSW` write only pixels clipped inside the buffer bounds; and
for every nonnegative radius `fillCircleSW` colors exactly the
in-bounds pixels with `dx² + dy² ≤ r²`. -/
theorem rasterizer_clips_and_circle_exact (im : Frame) (x y w h cx cy radius : Int)
    (c : RGBA) (maxW maxH : Int) (p : Int × Int) :
    (¬ InBounds maxW maxH p →
      fillRectSW im x y w h c maxW maxH p = im p ∧
      fillCircleSW im cx cy radius c maxW maxH p = im p) ∧
    (0 ≤ radius →
      fillCircleSW im cx cy radius c maxW maxH p =
        if ((p.1 - cx) * (p.1 - cx) + (p.2 - cy) * (p.2 - cy) ≤ radius * radius) ∧
            InBounds maxW maxH p
        then c else im p) :=
  ⟨fun hp => ⟨fillRectSW_outside im x y w h c maxW maxH p hp,
              fillCircleSW_outside im cx cy radius c maxW maxH p hp⟩,
   fun hr => fillCircleSW_apply im cx cy radius c maxW maxH p hr⟩

/-- Witness for the amended C8: an out-of-bounds pixel is untouched by
both fills, and the radius-3 circle equation holds there too. -/
theorem rasterizer_clips_and_circle_exact_witness :
    (fillRectSW (fun _ => bgColorSW) 0 0 50 50 ⟨1, 2, 3, 4⟩ 10 10 (-1, 0) =
        (fun _ => bgColorSW : Frame) (-1, 0) ∧
      fillCircleSW (fun _ => bgColorSW) 0 0 3 ⟨1, 2, 3, 4⟩ 10 10 (-1, 0) =
        (fun _ => bgColorSW : Frame) (-1, 0)) ∧
      fillCircleSW (fun _ => bgColorSW) 0 0 3 ⟨1, 2, 3, 4⟩ 10 10 (-1, 0) =
        (if ((((-1 : Int), (0 : Int)).1 - 0) * (((-1 : Int), (0 : Int)).1 - 0) +
              ((((-1 : Int), (0 : Int)).2 - 0)) * ((((-1 : Int), (0 : Int)).2 - 0)) ≤ 3 * 3) ∧
            InBounds 10 10 ((-1 : Int), (0 : Int))
          then ⟨1, 2, 3, 4⟩ else (fun _ => bgColorSW : Frame) ((-1 : Int), (0 : Int))) := by
  have hmain := rasterizer_clips_and_circle_exact (fun _ => bgColorSW) 0 0 50 50 0 0 3
    ⟨1, 2, 3, 4⟩ 10 10 ((-1 : Int), (0 : Int))
  exact ⟨hmain.1 (by decide), hmain.2 (by decide)⟩
